import Mathlib

/-! Verification development for the static stack-effect signature checker
in `src/check.rs` of the uiua repository: the `VirtualEnv` abstract
simulator, its per-instruction and per-combinator rules, the error
classifier and the cached entry points.  Definitions are translated from the
Rust source.  The few pieces whose code lives outside `src/`
(`Signature::inverse`, `Signature::compose`, `Display for Signature`, the
primitive metadata tables) are modelled from the spec and say so in their
doc comments. -/

/-- A function signature: arguments consumed and outputs produced. -/
structure Signature where
  args : Nat
  outputs : Nat
deriving DecidableEq, Repr

/-- Modelled from the spec: `Signature::inverse` is not under `src/`; the
spec says the inverse "swaps args/outputs". -/
def Signature.inverse (s : Signature) : Signature :=
  ⟨s.outputs, s.args⟩

/-- Modelled from the spec: `Signature::compose` is not under `src/`; the
spec gives `compose(a,b) = (a.args + max(0, b.args - a.outputs),
b.outputs + max(0, a.outputs - b.args))`.  Natural subtraction is exactly
the clamped subtraction. -/
def Signature.compose (a b : Signature) : Signature :=
  ⟨a.args + (b.args - a.outputs), b.outputs + (a.outputs - b.args)⟩

/-- Modelled from the spec: the repository's `Display` for `Signature` is
not under `src/`.  It only feeds human-readable error messages, which no
claim's truth depends on. -/
def Signature.fmtStr (s : Signature) : String :=
  "|" ++ toString s.args ++ "." ++ toString s.outputs

/-- The fixed-cardinality temp-stack tag (`TempStack`, defined outside
`src/` but with exactly the variants `check.rs` uses; `CARDINALITY = 2`). -/
inductive TempStack where
  | inline
  | under
deriving DecidableEq, Repr

/-- One datum per temp stack, replacing the Rust
`[T; TempStack::CARDINALITY]` arrays indexed by `stack as usize`. -/
structure TempData (α : Type) where
  inline : α
  under : α
deriving DecidableEq, Repr

def TempData.get (d : TempData α) : TempStack → α
  | .inline => d.inline
  | .under => d.under

def TempData.set (d : TempData α) : TempStack → α → TempData α
  | .inline, v => { d with inline := v }
  | .under, v => { d with under := v }

/-- An IEEE double as the checker observes it.  Every `f64` is exactly a
rational number, positive or negative infinity, or a NaN; the checker only
applies the predicates `>= 0.0`, `fract() == 0.0`, `is_infinite()` and the
saturating cast `abs() as usize`, all of which this model captures
exactly (no rounding arithmetic is ever performed on the count). -/
inductive F64 where
  | num (q : ℚ)
  | inf (neg : Bool)
  | nan
deriving DecidableEq

/-- Rust `n >= 0.0` (false for NaN). -/
def F64.isNonneg : F64 → Bool
  | .num q => decide (0 ≤ q)
  | .inf neg => !neg
  | .nan => false

/-- Rust `n.fract() == 0.0`: true exactly for integral finite values
(the `fract` of an infinity or NaN is NaN, which compares unequal to 0). -/
def F64.fractZero : F64 → Bool
  | .num q => decide (q.den = 1)
  | _ => false

def F64.isInfinite : F64 → Bool
  | .inf _ => true
  | _ => false

/-- `usize::MAX`: Rust float-to-int casts saturate at this bound. -/
def usizeMax : Nat := 2 ^ 64 - 1

/-- Rust `n.abs() as usize` for the values reaching it (integral finite
ones); the cast truncates toward zero and saturates at `usize::MAX`. -/
def F64.absAsUsize : F64 → Nat
  | .num q => min q.num.natAbs usizeMax
  | .inf _ => usizeMax
  | .nan => 0

/-- The abstracted value model (`BasicValue` in `check.rs`): a numeric
scalar, a literal array of abstracted values, or an opaque unknown. -/
inductive BasicValue where
  | Num (n : F64)
  | Arr (xs : List BasicValue)
  | Other

/-- The error classification kinds of `SigCheckErrorKind`. -/
inductive SigCheckErrorKind where
  | Incorrect
  | Ambiguous
  | LoopOverreach
  | LoopVariable (sig : Signature) (inf : Bool)
deriving DecidableEq, Repr

/-- `SigCheckError`: a message plus a machine-readable kind. -/
structure SigCheckError where
  message : String
  kind : SigCheckErrorKind
deriving DecidableEq, Repr

/-- The `From<&str>`/`From<String>` conversions: a bare message is an
`Incorrect` error. -/
def SigCheckError.fromStr (s : String) : SigCheckError :=
  ⟨s, .Incorrect⟩

def SigCheckError.loop_overreach (e : SigCheckError) : SigCheckError :=
  { e with kind := .LoopOverreach }

def SigCheckError.loop_variable (e : SigCheckError) (sig : Signature) (inf : Bool) : SigCheckError :=
  { e with kind := .LoopVariable sig inf }

def SigCheckError.ambiguous (e : SigCheckError) : SigCheckError :=
  { e with kind := .Ambiguous }

/-- The simulator state (`struct VirtualEnv`).  `trace` is a ghost field
not present in the source: it records the main-stack height after every
individual height change (each `push`, each `pop`, and the direct height
assignments in the array-closing rules), newest first.  No rule ever reads
it; it exists only so that "the worst-case deficit observed at any point
during the replay" is a statable quantity. -/
structure VirtualEnv where
  stack : List BasicValue
  height : Int
  temp_stacks : TempData (List BasicValue)
  temp_heights : TempData Int
  function_stack : List Signature
  array_stack : List Int
  min_height : Nat
  temp_min_heights : TempData Nat
  trace : List Int

/-- The starting state built by `VirtualEnv::from_instrs`. -/
def VirtualEnv.init : VirtualEnv :=
  { stack := []
    height := 0
    temp_stacks := ⟨[], []⟩
    temp_heights := ⟨0, 0⟩
    function_stack := []
    array_stack := []
    min_height := 0
    temp_min_heights := ⟨0, 0⟩
    trace := [] }

/-- `fn derive_sig`: args is the worst deficit, outputs is the final
height plus that deficit, clamped at zero (`Int.toNat` is exactly
`.max(0) as usize` on the source's `i32`). -/
def derive_sig (min_height : Nat) (final_height : Int) : Signature :=
  ⟨min_height, (final_height + min_height).toNat⟩

/-- `VirtualEnv::set_min_height`: record the current height as a potential
minimum, lower the innermost open array marker's floor, and refresh every
temp stack's own minimum. -/
def VirtualEnv.set_min_height (env : VirtualEnv) : VirtualEnv :=
  { env with
    min_height := max env.min_height (-env.height).toNat
    array_stack :=
      match env.array_stack with
      | [] => []
      | top :: rest => min top env.height :: rest
    temp_min_heights :=
      ⟨max env.temp_min_heights.inline (-env.temp_heights.inline).toNat,
       max env.temp_min_heights.under (-env.temp_heights.under).toNat⟩ }

/-- `VirtualEnv::push`: raise the height and record the value.  The list
holds the top of the stack first. -/
def VirtualEnv.push (env : VirtualEnv) (v : BasicValue) : VirtualEnv :=
  { env with
    height := env.height + 1
    stack := v :: env.stack
    trace := (env.height + 1) :: env.trace }

/-- `VirtualEnv::pop`: lower the height, capture the new potential
minimum, and return the recorded top value or an opaque placeholder when
none is available.  Total: popping past the record never fails. -/
def VirtualEnv.pop (env : VirtualEnv) : BasicValue × VirtualEnv :=
  let e := VirtualEnv.set_min_height
    { env with height := env.height - 1, trace := (env.height - 1) :: env.trace }
  match e.stack with
  | [] => (BasicValue.Other, e)
  | v :: rest => (v, { e with stack := rest })

/-- `VirtualEnv::push_temp`. -/
def VirtualEnv.push_temp (env : VirtualEnv) (st : TempStack) (v : BasicValue) : VirtualEnv :=
  { env with
    temp_heights := env.temp_heights.set st (env.temp_heights.get st + 1)
    temp_stacks := env.temp_stacks.set st (v :: env.temp_stacks.get st) }

/-- `VirtualEnv::pop_temp`: like `pop` but on the named temp stack,
updating only that stack's own minimum. -/
def VirtualEnv.pop_temp (env : VirtualEnv) (st : TempStack) : BasicValue × VirtualEnv :=
  let th := env.temp_heights.get st - 1
  let e :=
    { env with
      temp_heights := env.temp_heights.set st th
      temp_min_heights :=
        env.temp_min_heights.set st (max (env.temp_min_heights.get st) (-th).toNat) }
  match e.temp_stacks.get st with
  | [] => (BasicValue.Other, e)
  | v :: rest => (v, { e with temp_stacks := e.temp_stacks.set st rest })

/-- `VirtualEnv::pop_func`: take the innermost pending function signature,
a hard `Incorrect` error when none is pending. -/
def VirtualEnv.pop_func (env : VirtualEnv) : Except SigCheckError (Signature × VirtualEnv) :=
  match env.function_stack with
  | [] => .error (SigCheckError.fromStr "expected function. This is an interpreter bug")
  | sig :: rest => .ok (sig, { env with function_stack := rest })

/-- Pop `n` values, discarding them (the `for _ in 0..args` loops). -/
def VirtualEnv.popN (env : VirtualEnv) : Nat → VirtualEnv
  | 0 => env
  | n + 1 => (env.pop).2.popN n

/-- Push `n` opaque values. -/
def VirtualEnv.pushN (env : VirtualEnv) : Nat → VirtualEnv
  | 0 => env
  | n + 1 => (env.push BasicValue.Other).pushN n

/-- `VirtualEnv::handle_args_outputs`: pop `args` values then push
`outputs` opaque values. -/
def VirtualEnv.handle_args_outputs (env : VirtualEnv) (args outputs : Nat) : VirtualEnv :=
  (env.popN args).pushN outputs

/-- `VirtualEnv::handle_sig`. -/
def VirtualEnv.handle_sig (env : VirtualEnv) (sig : Signature) : VirtualEnv :=
  env.handle_args_outputs sig.args sig.outputs

/-- Pop `n` pending function signatures, discarding them. -/
def VirtualEnv.popFuncN (env : VirtualEnv) : Nat → Except SigCheckError VirtualEnv
  | 0 => .ok env
  | n + 1 =>
    match env.function_stack with
    | [] => .error (SigCheckError.fromStr "expected function. This is an interpreter bug")
    | _ :: rest => VirtualEnv.popFuncN { env with function_stack := rest } n

/-- Pop `n` values keeping them in pop order (first popped first), for the
`CopyToTemp` rule. -/
def VirtualEnv.popNvals (env : VirtualEnv) : Nat → List BasicValue × VirtualEnv
  | 0 => ([], env)
  | n + 1 =>
    let (v, e) := env.pop
    let (vs, e') := e.popNvals n
    (v :: vs, e')

/-- The main-stack signature of a completed simulation
(`VirtualEnv::sig`). -/
def VirtualEnv.sig (env : VirtualEnv) : Signature :=
  derive_sig env.min_height env.height

/-- `VirtualEnv::temp_signatures`. -/
def VirtualEnv.temp_signatures (env : VirtualEnv) : TempData Signature :=
  ⟨derive_sig env.temp_min_heights.inline env.temp_heights.inline,
   derive_sig env.temp_min_heights.under env.temp_heights.under⟩

/-- The primitives `check.rs` dispatches on.  Primitives with a
combinator-specific rule are distinct constructors.  Modelled from the
spec: the static metadata tables (`prim.args()`, `prim.outputs()`,
`prim.modifier_args()`) live outside `src/`, so a primitive handled only
by the generic rule is represented as `OtherPrim` carrying its metadata,
and the named combinators carry none (their rules never consult it). -/
inductive Primitive where
  | Astar | Reduce | Scan | Each | Rows | Inventory | Table | Tuples | Triangle
  | Group | Partition | Spawn | Pool | Repeat | Do | Un | Anti | Under | Fold
  | Try | Case | Fill | Content | Memo | Comptime | Dup | Flip | Pop | Over
  | Around | Join | SetInverse | SetUnder | Dump | Dip | Gap | Both | Fork
  | Bracket | On | By | With | Off | Below | Above
  | OtherPrim (name : String) (args outputs : Option Nat) (modifier_args : Option Nat)
deriving DecidableEq, Repr

/-- `prim.args()` as visible to the fast path in `instrs_signature`. -/
def Primitive.argsMeta : Primitive → Option Nat
  | .OtherPrim _ a _ _ => a
  | _ => none

/-- `prim.outputs()` as visible to the fast path in `instrs_signature`. -/
def Primitive.outputsMeta : Primitive → Option Nat
  | .OtherPrim _ _ o _ => o
  | _ => none

/-- `prim.modifier_args()` as visible to the fast path. -/
def Primitive.modifierArgsMeta : Primitive → Option Nat
  | .OtherPrim _ _ _ m => m
  | _ => none

/-- The implementation primitives `check.rs` dispatches on; the generic
fallback's metadata (`args()` and `outputs()` are total for these) is
carried by `OtherImplPrim`. -/
inductive ImplPrimitive where
  | EndRandArray
  | AstarFirst
  | ReduceContent
  | ReduceDepth (depth : Nat)
  | RepeatWithInverse
  | UnFill
  | UnBoth
  | OtherImplPrim (name : String) (args outputs : Nat) (modifier_args : Option Nat)
deriving DecidableEq, Repr

/-- The instruction stream (`Instr`), restricted to the payloads the
checker reads.  `Push` carries the already-abstracted value: the source's
`Instr::Push` holds a runtime `Value` that the checker immediately funnels
through `BasicValue::from_val`, whose image is exactly `BasicValue`.
`PushFunc` carries the nested function's precomputed signature
(`f.signature()`). -/
inductive Instr where
  | Comment
  | Push (val : BasicValue)
  | CallGlobal (call : Bool) (sig : Signature)
  | BindGlobal
  | BeginArray
  | EndArray
  | Call
  | CustomInverse
  | PushTemp (count : Nat) (stack : TempStack)
  | CopyToTemp (count : Nat) (stack : TempStack)
  | PopTemp (count : Nat) (stack : TempStack)
  | Label
  | ValidateType
  | PushFunc (sig : Signature)
  | Switch (count : Nat) (sig : Signature) (under_cond : Bool)
  | Format (partsLen : Nat)
  | MatchFormatPattern (partsLen : Nat)
  | Dynamic (sig : Signature)
  | Unpack (count : Nat)
  | TouchStack (count : Nat)
  | Prim (p : Primitive)
  | ImplPrim (ip : ImplPrimitive)
  | SetOutputComment

/-- `fn naive_under_sig`, line for line: `i32` becomes `Int`,
`unsigned_abs() as usize` becomes `Int.natAbs`, and the final
`(curr - min) as usize` (always non-negative there) becomes
`Int.toNat`. -/
def naive_under_sig (f g : Signature) : Signature :=
  let f_inv := if f.outputs > 1 then f.inverse else Signature.mk (min f.args 1) f.outputs
  let curr : Int := 0
  let m : Int := 0
  let curr := curr - f.args
  let m := min m curr
  let curr := curr + f.outputs
  let curr := curr - g.args
  let m := min m curr
  let curr := curr + g.outputs
  let curr := curr - f_inv.args
  let m := min m curr
  let curr := curr + f_inv.outputs
  ⟨m.natAbs, (curr - m).toNat⟩

/-- `VirtualEnv::repeat`.  The three-way `Ordering` match is written as an
if-chain in the same arm order (Equal, Less, Greater). -/
def VirtualEnv.repeat (env : VirtualEnv) (sig : Signature) (n : BasicValue) :
    Except SigCheckError VirtualEnv :=
  match n with
  | .Num x =>
    let sig := if x.isNonneg then sig else sig.inverse
    if x.fractZero then
      let nn := x.absAsUsize
      if nn > 0 then
        let ao : Nat × Nat :=
          if sig.args = sig.outputs then (sig.args, sig.outputs)
          else if sig.args < sig.outputs then
            (sig.args, nn * (sig.outputs - sig.args) + sig.args)
          else ((nn - 1) * (sig.args - sig.outputs) + sig.args, sig.outputs)
        .ok (env.handle_args_outputs ao.1 ao.2)
      else .ok env
    else if x.isInfinite then
      if sig.outputs < sig.args then
        .error ((SigCheckError.fromStr
          ("repeat with infinity and a function with signature " ++ sig.fmtStr)).loop_overreach)
      else if sig.args < sig.outputs then
        if env.array_stack.isEmpty then
          .error ((SigCheckError.fromStr
            ("repeat with infinity and a function with signature " ++ sig.fmtStr)).loop_variable
              sig true)
        else .ok (env.handle_sig sig)
      else .ok (env.handle_sig sig)
    else .error (SigCheckError.fromStr "repeat without an integer or infinity")
  | _ =>
    if sig.args = sig.outputs then .ok (env.handle_sig sig)
    else if sig.outputs < sig.args then
      .error ((SigCheckError.fromStr
        ("repeat with no number and a function with signature " ++ sig.fmtStr)).loop_overreach)
    else if env.array_stack.isEmpty then
      .error ((SigCheckError.fromStr
        ("repeat with no number and a function with signature " ++ sig.fmtStr)).loop_variable
          sig false)
    else .ok (env.handle_sig sig)

/-- The `Do` arm of `VirtualEnv::instr` (factored out; `body` is the first
popped function, `cond` the second). -/
def VirtualEnv.doArm (env : VirtualEnv) (body cond : Signature) :
    Except SigCheckError VirtualEnv :=
  let copy_count := cond.args - (cond.outputs - 1)
  let cond_sub_sig : Signature := ⟨cond.args, (cond.outputs + copy_count) - 1⟩
  let comp_sig := body.compose cond_sub_sig
  if comp_sig.args < comp_sig.outputs ∧ env.array_stack = [] then
    .error ((SigCheckError.fromStr
      ("do with a function with signature " ++ comp_sig.fmtStr)).loop_variable comp_sig false)
  else
    .ok (env.handle_args_outputs comp_sig.args
      (comp_sig.outputs + (cond_sub_sig.outputs - cond.args)))

/-- The `EndArray` arm: pop the marker (error when none), drain the stack
back down to it (padding with opaque values when the marker lies below the
start), jump the height to the marker, capture the minimum, and push the
collapsed literal array.  `drained` lists the Rust vector in the same
order it holds after the source's `items.reverse()`. -/
def VirtualEnv.endArray (env : VirtualEnv) : Except SigCheckError VirtualEnv :=
  match env.array_stack with
  | [] => .error (SigCheckError.fromStr "EndArray without BeginArray")
  | bottom :: rest =>
    let e := { env with array_stack := rest }
    let stack_bottom := min bottom.toNat e.stack.length
    let drained :=
      List.replicate (-bottom).toNat BasicValue.Other ++
        e.stack.take (e.stack.length - stack_bottom)
    let e :=
      { e with
        stack := e.stack.drop (e.stack.length - stack_bottom)
        height := bottom
        trace := bottom :: e.trace }
    .ok (e.set_min_height.push (BasicValue.Arr drained))

/-- The `ImplPrimitive::EndRandArray` arm: pop the length, pop the marker
(error when none), drain, jump to the marker, capture the minimum, push an
opaque result. -/
def VirtualEnv.endRandArray (env : VirtualEnv) : Except SigCheckError VirtualEnv :=
  let (_, env) := env.pop
  match env.array_stack with
  | [] => .error (SigCheckError.fromStr "EndRandArray without BeginArray")
  | bottom :: rest =>
    let e := { env with array_stack := rest }
    let stack_bottom := min bottom.toNat e.stack.length
    let e :=
      { e with
        stack := e.stack.drop (e.stack.length - stack_bottom)
        height := bottom
        trace := bottom :: e.trace }
    .ok (e.set_min_height.push BasicValue.Other)

/-- The `?` operator on `pop_func` results: propagate the error, else
continue with the popped signature and the shrunk state. -/
def bindF (x : Except SigCheckError (Signature × VirtualEnv))
    (k : Signature → VirtualEnv → Except SigCheckError VirtualEnv) :
    Except SigCheckError VirtualEnv :=
  match x with
  | .error er => .error er
  | .ok (sig, e) => k sig e

/-- The `?` operator on state-valued fallible steps. -/
def bindE (x : Except SigCheckError VirtualEnv)
    (k : VirtualEnv → Except SigCheckError VirtualEnv) :
    Except SigCheckError VirtualEnv :=
  match x with
  | .error er => .error er
  | .ok e => k e

/-- The shared `Astar`/`AstarFirst` arm: pop the start value and three
function operands, then `handle(max of their args - 1, 2)`. -/
def VirtualEnv.astarArm (env : VirtualEnv) : Except SigCheckError VirtualEnv :=
  let (_, env) := env.pop
  bindF env.pop_func fun neighbors env =>
  bindF env.pop_func fun heuristic env =>
  bindF env.pop_func fun goal env =>
    let args := (neighbors.args.max heuristic.args).max goal.args - 1
    .ok (env.handle_args_outputs args 2)

/-- The shared `Fill`/`UnFill` arm. -/
def VirtualEnv.fillArm (env : VirtualEnv) : Except SigCheckError VirtualEnv :=
  bindF env.pop_func fun fill_sig env =>
    let env := if fill_sig.outputs > 0 then env.handle_sig fill_sig else env
    let env := env.handle_args_outputs fill_sig.outputs 0
    bindF env.pop_func fun f env => .ok (env.handle_sig f)

/-- The `PushTemp` loop body: `count` times pop a value and move it to the
temp stack. -/
def VirtualEnv.pushTempN (env : VirtualEnv) (st : TempStack) : Nat → VirtualEnv
  | 0 => env
  | n + 1 =>
    let (v, e) := env.pop
    VirtualEnv.pushTempN (e.push_temp st v) st n

/-- The `PopTemp` loop body: `count` times move a value back from the temp
stack. -/
def VirtualEnv.popTempN (env : VirtualEnv) (st : TempStack) : Nat → VirtualEnv
  | 0 => env
  | n + 1 =>
    let (v, e) := env.pop_temp st
    VirtualEnv.popTempN (e.push v) st n

/-- The `CopyToTemp` arm: pop `count` values, capture the minimum, then
for each value (in pop order) both copy it to the temp stack and push it
back. -/
def VirtualEnv.copyToTemp (env : VirtualEnv) (count : Nat) (st : TempStack) : VirtualEnv :=
  let (vals, e) := env.popNvals count
  let e := e.set_min_height
  vals.foldl (fun e v => (e.push_temp st v).push v) e

/-- The `Instr::Prim` match of `VirtualEnv::instr` (`af` supplies
`Signature::anti`, whose code is outside `src/` and which the spec leaves
unspecified; every theorem below holds for every choice of `af`). -/
def VirtualEnv.primArm (af : Signature → Option Signature) (env : VirtualEnv) :
    Primitive → Except SigCheckError VirtualEnv
  | .Astar => env.astarArm
  | .Reduce | .Scan =>
    bindF env.pop_func fun sig e =>
      .ok (e.handle_args_outputs (sig.args - sig.outputs) sig.outputs)
  | .Each | .Rows | .Inventory =>
    bindF env.pop_func fun sig e => .ok (e.handle_sig sig)
  | .Table | .Tuples | .Triangle =>
    bindF env.pop_func fun sig e => .ok (e.handle_sig sig)
  | .Group | .Partition =>
    bindF env.pop_func fun sig e => .ok (e.handle_args_outputs 2 sig.outputs)
  | .Spawn | .Pool =>
    bindF env.pop_func fun sig e => .ok (e.handle_args_outputs sig.args 1)
  | .Repeat =>
    bindF env.pop_func fun f e =>
      let (n, e) := e.pop
      e.repeat f n
  | .Do =>
    bindF env.pop_func fun body e =>
    bindF e.pop_func fun cond e => e.doArm body cond
  | .Un =>
    bindF env.pop_func fun sig e => .ok (e.handle_sig sig.inverse)
  | .Anti =>
    bindF env.pop_func fun sig e => .ok (e.handle_sig ((af sig).getD sig))
  | .Under =>
    bindF env.pop_func fun f e =>
    bindF e.pop_func fun g e => .ok (e.handle_sig (naive_under_sig f g))
  | .Fold =>
    bindF env.pop_func fun f e => .ok (e.handle_sig f)
  | .Try =>
    bindF env.pop_func fun f_sig e =>
    bindF e.pop_func fun _ e => .ok (e.handle_sig f_sig)
  | .Case =>
    bindF env.pop_func fun f_sig e => .ok (e.handle_sig f_sig)
  | .Fill => env.fillArm
  | .Content | .Memo | .Comptime =>
    bindF env.pop_func fun f e => .ok (e.handle_sig f)
  | .Dup =>
    let (v, e) := env.pop
    let e := e.set_min_height
    .ok ((e.push v).push v)
  | .Flip =>
    let (a, e) := env.pop
    let (b, e) := e.pop
    let e := e.set_min_height
    .ok ((e.push a).push b)
  | .Pop =>
    let (_, e) := env.pop
    .ok e.set_min_height
  | .Over =>
    let (a, e) := env.pop
    let (b, e) := e.pop
    let e := e.set_min_height
    .ok (((e.push b).push a).push b)
  | .Around =>
    let (a, e) := env.pop
    let (b, e) := e.pop
    let e := e.set_min_height
    .ok (((e.push a).push b).push a)
  | .Join =>
    let (a, e) := env.pop
    let (b, e) := e.pop
    let e := e.set_min_height
    .ok (match a, b with
      | .Arr xs, .Arr ys => e.push (.Arr (xs ++ ys))
      | .Arr xs, bb => e.push (.Arr (xs ++ [bb]))
      | aa, .Arr ys => e.push (.Arr (aa :: ys))
      | aa, bb => e.push (.Arr [aa, bb]))
  | .SetInverse =>
    bindF env.pop_func fun f e =>
    bindF e.pop_func fun _ e => .ok (e.handle_sig f)
  | .SetUnder =>
    bindF env.pop_func fun f e =>
    bindF e.pop_func fun _ e =>
    bindF e.pop_func fun _ e => .ok (e.handle_sig f)
  | .Dump =>
    bindF env.pop_func fun _ e => .ok e
  | .Dip =>
    bindF env.pop_func fun f e => .ok (e.handle_args_outputs (f.args + 1) (f.outputs + 1))
  | .Gap =>
    bindF env.pop_func fun f e => .ok (e.handle_args_outputs (f.args + 1) f.outputs)
  | .Both =>
    bindF env.pop_func fun f e => .ok (e.handle_args_outputs (f.args * 2) (f.outputs * 2))
  | .Fork =>
    bindF env.pop_func fun f e =>
    bindF e.pop_func fun g e =>
      .ok (e.handle_args_outputs (f.args.max g.args) (f.outputs + g.outputs))
  | .Bracket =>
    bindF env.pop_func fun f e =>
    bindF e.pop_func fun g e =>
      .ok (e.handle_args_outputs (f.args + g.args) (f.outputs + g.outputs))
  | .On | .By =>
    bindF env.pop_func fun f e => .ok (e.handle_args_outputs f.args (f.outputs + 1))
  | .With | .Off =>
    bindF env.pop_func fun f e =>
      let f := if f.args < 2 then Signature.mk 2 (f.outputs + (2 - f.args)) else f
      .ok (e.handle_sig f)
  | .Below | .Above =>
    bindF env.pop_func fun f e =>
      let f := if f.args < 2 then Signature.mk (f.args + 1) (f.outputs + 1) else f
      .ok (e.handle_args_outputs f.args (f.args + f.outputs))
  | .OtherPrim nm argsM outputsM modM =>
    match argsM with
    | none => .error (SigCheckError.fromStr (nm ++ " has indeterminate args"))
    | some args =>
      bindE (env.popFuncN (modM.getD 0)) fun e =>
        match outputsM with
        | none => .error (SigCheckError.fromStr (nm ++ " has indeterminate outputs"))
        | some outputs => .ok (e.handle_args_outputs args outputs)

/-- The `Instr::ImplPrim` match of `VirtualEnv::instr` (besides
`EndRandArray` and `AstarFirst`, which are dispatched at the `Instr`
level). -/
def VirtualEnv.implPrimArm (env : VirtualEnv) :
    ImplPrimitive → Except SigCheckError VirtualEnv
  | .ReduceContent | .ReduceDepth _ =>
    bindF env.pop_func fun sig e =>
      .ok (e.handle_args_outputs (sig.args - sig.outputs) sig.outputs)
  | .RepeatWithInverse =>
    bindF env.pop_func fun f e =>
    bindF e.pop_func fun inv e =>
      if f.inverse ≠ inv then
        .error ((SigCheckError.fromStr
          "repeat inverse does not have inverse signature").ambiguous)
      else
        let (n, e) := e.pop
        e.repeat f n
  | .UnFill => env.fillArm
  | .UnBoth =>
    bindF env.pop_func fun f e => .ok (e.handle_args_outputs (f.args * 2) (f.outputs * 2))
  | .EndRandArray => env.endRandArray
  | .AstarFirst => env.astarArm
  | .OtherImplPrim _ args outputs modM =>
    bindE (env.popFuncN (modM.getD 0)) fun e =>
      .ok (((e.popN args).set_min_height).pushN outputs)

/-- `VirtualEnv::instr`: the per-instruction dispatch. -/
def VirtualEnv.instr (af : Signature → Option Signature) (env : VirtualEnv) :
    Instr → Except SigCheckError VirtualEnv
  | .Comment => .ok env
  | .Push v => .ok (env.push v)
  | .CallGlobal call sg =>
    .ok (if call then env.handle_sig sg
         else { env with function_stack := sg :: env.function_stack })
  | .BindGlobal => .ok (env.pop).2
  | .BeginArray => .ok { env with array_stack := env.height :: env.array_stack }
  | .EndArray => env.endArray
  | .Call | .CustomInverse =>
    bindF env.pop_func fun sig e => .ok (e.handle_sig sig)
  | .PushTemp count st => .ok ((env.pushTempN st count).set_min_height)
  | .CopyToTemp count st => .ok (env.copyToTemp count st)
  | .PopTemp count st => .ok ((env.popTempN st count).set_min_height)
  | .Label => .ok (env.handle_args_outputs 1 1)
  | .ValidateType => .ok (env.handle_args_outputs 1 1)
  | .PushFunc sg => .ok { env with function_stack := sg :: env.function_stack }
  | .Switch count sg under_cond =>
    bindE (env.popFuncN count) fun e =>
      let (cond, e) := e.pop
      let e := if under_cond then e.push_temp .under cond else e
      .ok (e.handle_sig sg)
  | .Format partsLen => .ok (env.handle_args_outputs (partsLen - 1) 1)
  | .MatchFormatPattern partsLen => .ok (env.handle_args_outputs 1 (partsLen - 1))
  | .Dynamic sg => .ok (env.handle_sig sg)
  | .Unpack count => .ok (env.handle_args_outputs 1 count)
  | .TouchStack count => .ok (env.handle_args_outputs count count)
  | .Prim p => env.primArm af p
  | .ImplPrim ip => env.implPrimArm ip
  | .SetOutputComment => .ok env

/-- `VirtualEnv::instrs`: consume the sequence, stopping at the first
error. -/
def VirtualEnv.instrs (af : Signature → Option Signature) (env : VirtualEnv) :
    List Instr → Except SigCheckError VirtualEnv
  | [] => .ok env
  | i :: rest =>
    match env.instr af i with
    | .error er => .error er
    | .ok e => e.instrs af rest

/-- `VirtualEnv::from_instrs`: run the simulator from the fresh state. -/
def VirtualEnv.from_instrs (af : Signature → Option Signature) (l : List Instr) :
    Except SigCheckError VirtualEnv :=
  VirtualEnv.init.instrs af l

/-- The single-primitive fast path of `instrs_signature` (lines 18-25):
defined when the slice is one plain primitive with statically known
argument and output counts. -/
def fastPathSig : List Instr → Option Signature
  | [.Prim p] =>
    match p.argsMeta, p.outputsMeta with
    | some args, some outputs => some ⟨args + (p.modifierArgsMeta.getD 0), outputs⟩
    | _, _ => none
  | _ => none

/-- `fn instrs_signature`: the fast path, else a full simulation. -/
def instrs_signature (af : Signature → Option Signature) (l : List Instr) :
    Except SigCheckError Signature :=
  match fastPathSig l with
  | some s => .ok s
  | none => (VirtualEnv.from_instrs af l).map VirtualEnv.sig

/-- The `AllSignatures` bundle. -/
structure AllSignatures where
  stack : Signature
  temps : TempData Signature
  functions_left : Nat
  array_stack : Nat
deriving DecidableEq, Repr

/-- The body of `instrs_all_signatures` on a cache miss: one full
simulation producing the bundle. -/
def instrs_all_signatures_uncached (af : Signature → Option Signature) (l : List Instr) :
    Except SigCheckError AllSignatures :=
  (VirtualEnv.from_instrs af l).map fun env =>
    { stack := env.sig
      temps := env.temp_signatures
      functions_left := env.function_stack.length
      array_stack := env.array_stack.length }

/-- The memo table of `instrs_all_signatures`, keyed by the content hash
of the slice. -/
abbrev SigCache := List (Nat × AllSignatures)

/-- `HashMap::get` on the hash key. -/
def lookupHash (h : Nat) : SigCache → Option AllSignatures
  | [] => none
  | (h', s) :: rest => if h' = h then some s else lookupHash h rest

/-- `fn instrs_all_signatures`: the cached entry point.  The thread-local
table is made explicit (`cache` in, updated table out); `hashFn` stands
for the `DefaultHasher` content hash of the slice.  Only successful
results are inserted. -/
def instrs_all_signatures (af : Signature → Option Signature)
    (hashFn : List Instr → Nat) (cache : SigCache) (l : List Instr) :
    Except SigCheckError AllSignatures × SigCache :=
  match lookupHash (hashFn l) cache with
  | some s => (.ok s, cache)
  | none =>
    match instrs_all_signatures_uncached af l with
    | .ok s => (.ok s, (hashFn l, s) :: cache)
    | .error er => (.error er, cache)

/-- A cache is valid when every stored bundle is the uncached result of
some slice with that hash. -/
def CacheValid (af : Signature → Option Signature) (hashFn : List Instr → Nat)
    (cache : SigCache) : Prop :=
  ∀ h s, lookupHash h cache = some s →
    ∃ l₀, hashFn l₀ = h ∧ instrs_all_signatures_uncached af l₀ = .ok s

/-- The deficit a height represents: how far it lies below zero
(`(-h).max(0) as usize`). -/
def deficit (h : Int) : Nat := (-h).toNat

/-- The worst deficit over a recorded height history. -/
def maxDeficit : List Int → Nat
  | [] => 0
  | h :: t => max (deficit h) (maxDeficit t)

@[simp] theorem maxDeficit_nil : maxDeficit [] = 0 := rfl

@[simp] theorem maxDeficit_cons (a : Int) (t : List Int) :
    maxDeficit (a :: t) = max (deficit a) (maxDeficit t) := rfl

/-- The bookkeeping invariant of the simulator: the tracked `min_height`
is exactly the worst deficit recorded in the replay history, and it
dominates the current height's deficit. -/
def EnvInv (env : VirtualEnv) : Prop :=
  env.min_height = maxDeficit env.trace ∧ deficit env.height ≤ env.min_height

theorem deficit_anti {a b : Int} (h : a ≤ b) : deficit b ≤ deficit a := by
  unfold deficit
  omega

theorem envInv_init : EnvInv VirtualEnv.init :=
  ⟨rfl, Nat.le_refl 0⟩

theorem envInv_push {env : VirtualEnv} (hI : EnvInv env) (v : BasicValue) :
    EnvInv (env.push v) := by
  obtain ⟨h1, h2⟩ := hI
  have hd : deficit (env.height + 1) ≤ env.min_height :=
    le_trans (deficit_anti (by omega)) h2
  constructor
  · show env.min_height = maxDeficit ((env.height + 1) :: env.trace)
    rw [maxDeficit_cons]
    omega
  · exact hd

theorem pop_snd_height (env : VirtualEnv) : (env.pop).2.height = env.height - 1 := by
  obtain ⟨s, h, ts, th, fs, ar, m, tm, tr⟩ := env
  cases s <;> rfl

theorem pop_snd_min (env : VirtualEnv) :
    (env.pop).2.min_height = max env.min_height (deficit (env.height - 1)) := by
  obtain ⟨s, h, ts, th, fs, ar, m, tm, tr⟩ := env
  cases s <;> rfl

theorem pop_snd_trace (env : VirtualEnv) :
    (env.pop).2.trace = (env.height - 1) :: env.trace := by
  obtain ⟨s, h, ts, th, fs, ar, m, tm, tr⟩ := env
  cases s <;> rfl

theorem pop_fst (env : VirtualEnv) : (env.pop).1 = env.stack.headD BasicValue.Other := by
  obtain ⟨s, h, ts, th, fs, ar, m, tm, tr⟩ := env
  cases s <;> rfl

theorem envInv_pop {env : VirtualEnv} (hI : EnvInv env) : EnvInv (env.pop).2 := by
  obtain ⟨h1, h2⟩ := hI
  constructor
  · rw [pop_snd_min, pop_snd_trace, maxDeficit_cons]
    omega
  · rw [pop_snd_height, pop_snd_min]
    exact Nat.le_max_right _ _

theorem envInv_smh {env : VirtualEnv} (hI : EnvInv env) : EnvInv env.set_min_height := by
  obtain ⟨h1, h2⟩ := hI
  constructor
  · show max env.min_height (deficit env.height) = maxDeficit env.trace
    omega
  · show deficit env.height ≤ max env.min_height (deficit env.height)
    exact Nat.le_max_right _ _

theorem envInv_popN {env : VirtualEnv} (hI : EnvInv env) : ∀ n, EnvInv (env.popN n) := by
  intro n
  induction n generalizing env with
  | zero => exact hI
  | succ n ih => exact ih (envInv_pop hI)

theorem envInv_pushN {env : VirtualEnv} (hI : EnvInv env) : ∀ n, EnvInv (env.pushN n) := by
  intro n
  induction n generalizing env with
  | zero => exact hI
  | succ n ih => exact ih (envInv_push hI _)

theorem envInv_handle {env : VirtualEnv} (hI : EnvInv env) (a o : Nat) :
    EnvInv (env.handle_args_outputs a o) :=
  envInv_pushN (envInv_popN hI a) o

theorem envInv_handle_sig {env : VirtualEnv} (hI : EnvInv env) (sig : Signature) :
    EnvInv (env.handle_sig sig) :=
  envInv_handle hI sig.args sig.outputs

theorem envInv_push_temp {env : VirtualEnv} (hI : EnvInv env) (st : TempStack)
    (v : BasicValue) : EnvInv (env.push_temp st v) :=
  hI

theorem envInv_pop_temp {env : VirtualEnv} (hI : EnvInv env) (st : TempStack) :
    EnvInv (env.pop_temp st).2 := by
  obtain ⟨s, h, ⟨tsi, tsu⟩, th, fs, ar, m, tm, tr⟩ := env
  cases st
  · cases tsi <;> exact hI
  · cases tsu <;> exact hI

theorem envInv_pushTempN {env : VirtualEnv} (hI : EnvInv env) (st : TempStack) :
    ∀ n, EnvInv (env.pushTempN st n) := by
  intro n
  induction n generalizing env with
  | zero => exact hI
  | succ n ih => exact ih (envInv_push_temp (envInv_pop hI) st _)

theorem envInv_popTempN {env : VirtualEnv} (hI : EnvInv env) (st : TempStack) :
    ∀ n, EnvInv (env.popTempN st n) := by
  intro n
  induction n generalizing env with
  | zero => exact hI
  | succ n ih => exact ih (envInv_push (envInv_pop_temp hI st) _)

theorem envInv_popNvals {env : VirtualEnv} (hI : EnvInv env) :
    ∀ n, EnvInv (env.popNvals n).2 := by
  intro n
  induction n generalizing env with
  | zero => exact hI
  | succ n ih => exact ih (envInv_pop hI)

theorem envInv_foldTemp (st : TempStack) (l : List BasicValue) :
    ∀ {env : VirtualEnv}, EnvInv env →
      EnvInv (l.foldl (fun e v => (e.push_temp st v).push v) env) := by
  induction l with
  | nil => intro env hI; exact hI
  | cons v t ih => intro env hI; exact ih (envInv_push (envInv_push_temp hI st v) v)

theorem envInv_copyToTemp {env : VirtualEnv} (hI : EnvInv env) (count : Nat)
    (st : TempStack) : EnvInv (env.copyToTemp count st) :=
  envInv_foldTemp st _ (envInv_smh (envInv_popNvals hI count))

theorem envInv_pop_func {env : VirtualEnv} (hI : EnvInv env) :
    ∀ sig e, env.pop_func = .ok (sig, e) → EnvInv e := by
  intro sig e h
  unfold VirtualEnv.pop_func at h
  split at h
  · exact Except.noConfusion h
  · simp only [Except.ok.injEq, Prod.mk.injEq] at h
    obtain ⟨-, h2⟩ := h
    subst h2
    exact hI

theorem envInv_popFuncN : ∀ (n : Nat) {env e : VirtualEnv},
    env.popFuncN n = .ok e → EnvInv env → EnvInv e := by
  intro n
  induction n with
  | zero =>
    intro env e h hI
    injection h with h
    exact h ▸ hI
  | succ n ih =>
    intro env e h hI
    unfold VirtualEnv.popFuncN at h
    split at h
    · exact Except.noConfusion h
    · exact ih h hI

theorem envInv_bindF {x : Except SigCheckError (Signature × VirtualEnv)}
    {k : Signature → VirtualEnv → Except SigCheckError VirtualEnv} {env' : VirtualEnv}
    (hx : ∀ sig e, x = .ok (sig, e) → EnvInv e)
    (hk : ∀ sig e, EnvInv e → k sig e = .ok env' → EnvInv env')
    (h : bindF x k = .ok env') : EnvInv env' := by
  unfold bindF at h
  cases x with
  | error er => exact Except.noConfusion h
  | ok p =>
    obtain ⟨sig, e⟩ := p
    exact hk sig e (hx sig e rfl) h

theorem envInv_bindE {x : Except SigCheckError VirtualEnv}
    {k : VirtualEnv → Except SigCheckError VirtualEnv} {env' : VirtualEnv}
    (hx : ∀ e, x = .ok e → EnvInv e)
    (hk : ∀ e, EnvInv e → k e = .ok env' → EnvInv env')
    (h : bindE x k = .ok env') : EnvInv env' := by
  unfold bindE at h
  cases x with
  | error er => exact Except.noConfusion h
  | ok e => exact hk e (hx e rfl) h

theorem envInv_repeat {env env' : VirtualEnv} {f : Signature} {n : BasicValue}
    (h : env.repeat f n = .ok env') (hI : EnvInv env) : EnvInv env' := by
  cases n <;> simp only [VirtualEnv.repeat] at h <;> repeat' split at h
  all_goals first
    | exact Except.noConfusion h
    | (injection h with h; exact h ▸ envInv_handle hI _ _)
    | (injection h with h; exact h ▸ envInv_handle_sig hI _)
    | (injection h with h; exact h ▸ hI)

theorem envInv_doArm {env env' : VirtualEnv} {body cond : Signature}
    (h : env.doArm body cond = .ok env') (hI : EnvInv env) : EnvInv env' := by
  simp only [VirtualEnv.doArm] at h
  split at h
  · exact Except.noConfusion h
  · injection h with h
    exact h ▸ envInv_handle hI _ _

theorem envInv_endArray {env env' : VirtualEnv}
    (h : env.endArray = .ok env') (hI : EnvInv env) : EnvInv env' := by
  obtain ⟨h1, h2⟩ := hI
  unfold VirtualEnv.endArray at h
  split at h
  · exact Except.noConfusion h
  · next bottom rest _ =>
    injection h with h
    subst h
    apply envInv_push
    constructor
    · show max env.min_height (deficit bottom) = maxDeficit (bottom :: env.trace)
      rw [maxDeficit_cons]
      omega
    · show deficit bottom ≤ max env.min_height (deficit bottom)
      exact Nat.le_max_right _ _

theorem envInv_endRandArray {env env' : VirtualEnv}
    (h : env.endRandArray = .ok env') (hI : EnvInv env) : EnvInv env' := by
  have hI2 : EnvInv (env.pop).2 := envInv_pop hI
  rcases hpop : env.pop with ⟨v, e2⟩
  rw [hpop] at hI2
  have hI3 : EnvInv e2 := hI2
  obtain ⟨h1, h2⟩ := hI3
  unfold VirtualEnv.endRandArray at h
  simp only [hpop] at h
  split at h
  · exact Except.noConfusion h
  · next bottom rest _ =>
    injection h with h
    subst h
    apply envInv_push
    constructor
    · show max e2.min_height (deficit bottom) = maxDeficit (bottom :: e2.trace)
      rw [maxDeficit_cons]
      omega
    · show deficit bottom ≤ max e2.min_height (deficit bottom)
      exact Nat.le_max_right _ _

theorem envInv_astarArm {env env' : VirtualEnv}
    (h : env.astarArm = .ok env') (hI : EnvInv env) : EnvInv env' := by
  have hI2 : EnvInv (env.pop).2 := envInv_pop hI
  rcases hpop : env.pop with ⟨v, e2⟩
  rw [hpop] at hI2
  unfold VirtualEnv.astarArm at h
  rw [hpop] at h
  refine envInv_bindF (envInv_pop_func hI2) (fun n1 e hIe hk => ?_) h
  refine envInv_bindF (envInv_pop_func hIe) (fun n2 e hIe2 hk2 => ?_) hk
  refine envInv_bindF (envInv_pop_func hIe2) (fun n3 e hIe3 hk3 => ?_) hk2
  injection hk3 with hk3
  exact hk3 ▸ envInv_handle hIe3 _ _

theorem envInv_fillArm {env env' : VirtualEnv}
    (h : env.fillArm = .ok env') (hI : EnvInv env) : EnvInv env' := by
  unfold VirtualEnv.fillArm at h
  refine envInv_bindF (envInv_pop_func hI) (fun fs e hIe hk => ?_) h
  simp only at hk
  have hIe2 : EnvInv (if fs.outputs > 0 then e.handle_sig fs else e) := by
    split
    · exact envInv_handle_sig hIe _
    · exact hIe
  refine envInv_bindF (envInv_pop_func (envInv_handle hIe2 _ _)) (fun f e2 hIe3 hk2 => ?_) hk
  injection hk2 with hk2
  exact hk2 ▸ envInv_handle_sig hIe3 _

theorem envInv_primArm {af : Signature → Option Signature} {env env' : VirtualEnv}
    {p : Primitive} (h : env.primArm af p = .ok env') (hI : EnvInv env) : EnvInv env' := by
  cases p
  case Astar => exact envInv_astarArm h hI
  case Fill => exact envInv_fillArm h hI
  case Repeat =>
    refine envInv_bindF (envInv_pop_func hI) (fun f e hIe hk => ?_) h
    simp only at hk
    rcases hpop : e.pop with ⟨n, e2⟩
    rw [hpop] at hk
    have hIe2 : EnvInv (e.pop).2 := envInv_pop hIe
    rw [hpop] at hIe2
    exact envInv_repeat hk hIe2
  case Do =>
    refine envInv_bindF (envInv_pop_func hI) (fun body e hIe hk => ?_) h
    refine envInv_bindF (envInv_pop_func hIe) (fun cond e2 hIe2 hk2 => ?_) hk
    exact envInv_doArm hk2 hIe2
  case Dup =>
    simp only [VirtualEnv.primArm] at h
    rcases hpop : env.pop with ⟨v, e2⟩
    rw [hpop] at h
    have hIe : EnvInv (env.pop).2 := envInv_pop hI
    rw [hpop] at hIe
    injection h with h
    exact h ▸ envInv_push (envInv_push (envInv_smh hIe) v) v
  case Flip =>
    simp only [VirtualEnv.primArm] at h
    rcases hpop : env.pop with ⟨a, e2⟩
    rw [hpop] at h
    have hIe : EnvInv (env.pop).2 := envInv_pop hI
    rw [hpop] at hIe
    rcases hpop2 : e2.pop with ⟨b, e3⟩
    rw [hpop2] at h
    have hIe2 : EnvInv (e2.pop).2 := envInv_pop hIe
    rw [hpop2] at hIe2
    injection h with h
    exact h ▸ envInv_push (envInv_push (envInv_smh hIe2) a) b
  case Pop =>
    simp only [VirtualEnv.primArm] at h
    rcases hpop : env.pop with ⟨v, e2⟩
    rw [hpop] at h
    have hIe : EnvInv (env.pop).2 := envInv_pop hI
    rw [hpop] at hIe
    injection h with h
    exact h ▸ envInv_smh hIe
  case Over =>
    simp only [VirtualEnv.primArm] at h
    rcases hpop : env.pop with ⟨a, e2⟩
    rw [hpop] at h
    have hIe : EnvInv (env.pop).2 := envInv_pop hI
    rw [hpop] at hIe
    rcases hpop2 : e2.pop with ⟨b, e3⟩
    rw [hpop2] at h
    have hIe2 : EnvInv (e2.pop).2 := envInv_pop hIe
    rw [hpop2] at hIe2
    injection h with h
    exact h ▸ envInv_push (envInv_push (envInv_push (envInv_smh hIe2) b) a) b
  case Around =>
    simp only [VirtualEnv.primArm] at h
    rcases hpop : env.pop with ⟨a, e2⟩
    rw [hpop] at h
    have hIe : EnvInv (env.pop).2 := envInv_pop hI
    rw [hpop] at hIe
    rcases hpop2 : e2.pop with ⟨b, e3⟩
    rw [hpop2] at h
    have hIe2 : EnvInv (e2.pop).2 := envInv_pop hIe
    rw [hpop2] at hIe2
    injection h with h
    exact h ▸ envInv_push (envInv_push (envInv_push (envInv_smh hIe2) a) b) a
  case Join =>
    simp only [VirtualEnv.primArm] at h
    rcases hpop : env.pop with ⟨a, e2⟩
    rw [hpop] at h
    have hIe : EnvInv (env.pop).2 := envInv_pop hI
    rw [hpop] at hIe
    rcases hpop2 : e2.pop with ⟨b, e3⟩
    rw [hpop2] at h
    have hIe2 : EnvInv (e2.pop).2 := envInv_pop hIe
    rw [hpop2] at hIe2
    injection h with h
    subst h
    rcases a with _ | _ | _ <;> rcases b with _ | _ | _ <;>
      exact envInv_push (envInv_smh hIe2) _
  case OtherPrim nm argsM outputsM modM =>
    simp only [VirtualEnv.primArm] at h
    cases argsM with
    | none => exact Except.noConfusion h
    | some args =>
      refine envInv_bindE (fun e he => envInv_popFuncN _ he hI) (fun e hIe hk => ?_) h
      cases outputsM with
      | none => exact Except.noConfusion hk
      | some outputs =>
        injection hk with hk
        exact hk ▸ envInv_handle hIe _ _
  all_goals
    first
    | (refine envInv_bindF (envInv_pop_func hI) (fun sig e hIe hk => ?_) h
       first
       | (injection hk with hk
          first
          | exact hk ▸ envInv_handle hIe _ _
          | exact hk ▸ envInv_handle_sig hIe _
          | exact hk ▸ hIe)
       | (simp only at hk
          injection hk with hk
          first
          | exact hk ▸ envInv_handle hIe _ _
          | exact hk ▸ envInv_handle_sig hIe _)
       | (refine envInv_bindF (envInv_pop_func hIe) (fun sig2 e2 hIe2 hk2 => ?_) hk
          first
          | (injection hk2 with hk2
             first
             | exact hk2 ▸ envInv_handle hIe2 _ _
             | exact hk2 ▸ envInv_handle_sig hIe2 _
             | exact hk2 ▸ hIe2)
          | (refine envInv_bindF (envInv_pop_func hIe2) (fun sig3 e3 hIe3 hk3 => ?_) hk2
             injection hk3 with hk3
             first
             | exact hk3 ▸ envInv_handle hIe3 _ _
             | exact hk3 ▸ envInv_handle_sig hIe3 _)))

theorem envInv_implPrimArm {env env' : VirtualEnv} {ip : ImplPrimitive}
    (h : env.implPrimArm ip = .ok env') (hI : EnvInv env) : EnvInv env' := by
  cases ip
  case EndRandArray => exact envInv_endRandArray h hI
  case AstarFirst => exact envInv_astarArm h hI
  case UnFill => exact envInv_fillArm h hI
  case RepeatWithInverse =>
    refine envInv_bindF (envInv_pop_func hI) (fun f e hIe hk => ?_) h
    refine envInv_bindF (envInv_pop_func hIe) (fun inv e2 hIe2 hk2 => ?_) hk
    simp only at hk2
    split at hk2
    · exact Except.noConfusion hk2
    · rcases hpop : e2.pop with ⟨n, e3⟩
      rw [hpop] at hk2
      have hIe3 : EnvInv (e2.pop).2 := envInv_pop hIe2
      rw [hpop] at hIe3
      exact envInv_repeat hk2 hIe3
  case OtherImplPrim nm args outputs modM =>
    refine envInv_bindE (fun e he => envInv_popFuncN _ he hI) (fun e hIe hk => ?_) h
    injection hk with hk
    exact hk ▸ envInv_pushN (envInv_smh (envInv_popN hIe args)) outputs
  all_goals
    refine envInv_bindF (envInv_pop_func hI) (fun sig e hIe hk => ?_) h
  all_goals
    injection hk with hk
  all_goals
    exact hk ▸ envInv_handle hIe _ _

theorem envInv_instr {af : Signature → Option Signature} {env env' : VirtualEnv}
    {i : Instr} (h : env.instr af i = .ok env') (hI : EnvInv env) : EnvInv env' := by
  cases i
  case Comment => injection h with h; exact h ▸ hI
  case Push v => injection h with h; exact h ▸ envInv_push hI v
  case CallGlobal call sg =>
    injection h with h
    subst h
    cases call
    · exact hI
    · exact envInv_handle_sig hI sg
  case BindGlobal => injection h with h; exact h ▸ envInv_pop hI
  case BeginArray => injection h with h; exact h ▸ hI
  case EndArray => exact envInv_endArray h hI
  case Call =>
    exact envInv_bindF (envInv_pop_func hI)
      (fun sig e hIe hk => by injection hk with hk; exact hk ▸ envInv_handle_sig hIe _) h
  case CustomInverse =>
    exact envInv_bindF (envInv_pop_func hI)
      (fun sig e hIe hk => by injection hk with hk; exact hk ▸ envInv_handle_sig hIe _) h
  case PushTemp count st =>
    injection h with h
    exact h ▸ envInv_smh (envInv_pushTempN hI st count)
  case CopyToTemp count st =>
    injection h with h
    exact h ▸ envInv_copyToTemp hI count st
  case PopTemp count st =>
    injection h with h
    exact h ▸ envInv_smh (envInv_popTempN hI st count)
  case Label => injection h with h; exact h ▸ envInv_handle hI 1 1
  case ValidateType => injection h with h; exact h ▸ envInv_handle hI 1 1
  case PushFunc sg => injection h with h; exact h ▸ hI
  case Switch count sg uc =>
    refine envInv_bindE (fun e he => envInv_popFuncN _ he hI) (fun e hIe hk => ?_) h
    simp only at hk
    rcases hpop : e.pop with ⟨cond, e2⟩
    rw [hpop] at hk
    have hIe2 : EnvInv (e.pop).2 := envInv_pop hIe
    rw [hpop] at hIe2
    have hIe3 : EnvInv e2 := hIe2
    injection hk with hk
    subst hk
    cases uc
    · exact envInv_handle_sig hIe3 sg
    · exact envInv_handle_sig (envInv_push_temp hIe3 .under cond) sg
  case Format partsLen => injection h with h; exact h ▸ envInv_handle hI _ _
  case MatchFormatPattern partsLen => injection h with h; exact h ▸ envInv_handle hI _ _
  case Dynamic sg => injection h with h; exact h ▸ envInv_handle_sig hI sg
  case Unpack count => injection h with h; exact h ▸ envInv_handle hI _ _
  case TouchStack count => injection h with h; exact h ▸ envInv_handle hI _ _
  case Prim p => exact envInv_primArm h hI
  case ImplPrim ip => exact envInv_implPrimArm h hI
  case SetOutputComment => injection h with h; exact h ▸ hI

theorem envInv_instrs {af : Signature → Option Signature} :
    ∀ (l : List Instr) {env env' : VirtualEnv},
      env.instrs af l = .ok env' → EnvInv env → EnvInv env' := by
  intro l
  induction l with
  | nil =>
    intro env env' h hI
    injection h with h
    exact h ▸ hI
  | cons i rest ih =>
    intro env env' h hI
    unfold VirtualEnv.instrs at h
    split at h
    · exact Except.noConfusion h
    · next e hi =>
      exact ih h (envInv_instr hi hI)

/-- Observable classification kind of a checker step result. -/
def errKind : Except SigCheckError VirtualEnv → Option SigCheckErrorKind
  | .error e => some e.kind
  | .ok _ => none

/-- Observable main-stack height of a checker step result (`99` flags an
error result). -/
def exceptHeight : Except SigCheckError VirtualEnv → Int
  | .ok e => e.height
  | .error _ => 99

/-- C1: for every instruction sequence that the checker completes without
error, the main-stack signature returned equals
`{ args := min_height, outputs := max (height + min_height) 0 }`, where
`min_height` is the worst-case deficit observed at any point of the
symbolic replay (the maximum of `max (-h) 0` over every intermediate
height `h`, as recorded in the ghost trace) and `height` is the final net
main-stack delta (the simulation starts at height 0 and every stack
operation adjusts it). -/
theorem c1_final_signature (af : Signature → Option Signature) (l : List Instr)
    (env : VirtualEnv) (h : VirtualEnv.from_instrs af l = .ok env) :
    env.sig = ⟨env.min_height, (env.height + env.min_height).toNat⟩ ∧
    env.min_height = maxDeficit env.trace := by
  have hI : EnvInv env := envInv_instrs l h envInv_init
  exact ⟨rfl, hI.1⟩

/-- The state after checking `[Prim Pop]`, used as the C1 witness input. -/
def c1WitnessEnv : VirtualEnv :=
  { stack := []
    height := -1
    temp_stacks := ⟨[], []⟩
    temp_heights := ⟨0, 0⟩
    function_stack := []
    array_stack := []
    min_height := 1
    temp_min_heights := ⟨0, 0⟩
    trace := [-1] }

/-- C1 witness: the checker accepts `[Prim Pop]` and the final signature
formula holds there. -/
theorem c1_final_signature_witness :
    VirtualEnv.from_instrs (fun _ => none) [.Prim .Pop] = .ok c1WitnessEnv ∧
    (c1WitnessEnv.sig = ⟨c1WitnessEnv.min_height,
        (c1WitnessEnv.height + c1WitnessEnv.min_height).toNat⟩ ∧
      c1WitnessEnv.min_height = maxDeficit c1WitnessEnv.trace) :=
  ⟨rfl, c1_final_signature (fun _ => none) [.Prim .Pop] c1WitnessEnv rfl⟩

/-- The Under rule's derived signature exactly as the claim words it:
start a counter at 0, fold the six deltas (minus `f.args`, plus
`f.outputs`, minus `g.args`, plus `g.outputs`, minus `f_inv.args`, plus
`f_inv.outputs`), recording the running minimum after each subtraction;
the result is `(|min|, final - min)`. -/
def underClaimSpec (f g : Signature) : Signature :=
  let f_inv := if f.outputs > 1 then f.inverse else Signature.mk (min f.args 1) f.outputs
  let steps : List (Int × Bool) :=
    [(-(f.args : Int), true), ((f.outputs : Int), false),
     (-(g.args : Int), true), ((g.outputs : Int), false),
     (-(f_inv.args : Int), true), ((f_inv.outputs : Int), false)]
  let p := steps.foldl
    (fun (p : Int × Int) step =>
      let c := p.1 + step.1
      (c, if step.2 then min p.2 c else p.2)) (0, 0)
  ⟨p.2.natAbs, (p.1 - p.2).toNat⟩

/-- C5: `naive_under_sig` computes exactly the claim's running-minimum
fold, with the inverse taken as the swapped signature when
`f.outputs > 1` and as `(min f.args 1, f.outputs)` otherwise. -/
theorem c5_under_sig (f g : Signature) : naive_under_sig f g = underClaimSpec f g := by
  unfold naive_under_sig underClaimSpec
  split <;> rfl

/-- C8: the simulator's pop is a total function on states: it decrements
the height, raises `min_height` to `max min_height (max (-height) 0)`
(with `height` the already-decremented value, and the `i32` clamp
`.max(0) as usize` rendered by `Int.toNat`), and yields the recorded top
value, falling back to the opaque placeholder exactly when no recorded
value is available (`List.headD`); underflow is never an error. -/
theorem c8_pop_total (env : VirtualEnv) :
    (env.pop).2.height = env.height - 1 ∧
    (env.pop).2.min_height = max env.min_height (-(env.height - 1)).toNat ∧
    (env.pop).1 = env.stack.headD BasicValue.Other :=
  ⟨pop_snd_height env, pop_snd_min env, pop_fst env⟩

/-- C9: a slice of exactly one plain primitive with statically known
argument and output counts takes the fast path of `instrs_signature`:
the result is `args + modifier_args` (zero when there are no function
operands) and `outputs`, and the simulator is bypassed — with a positive
modifier count the simulator itself would reject the same slice for lack
of a pending function operand. -/
theorem c9_fast_path (af : Signature → Option Signature) (nm : String)
    (a o : Nat) (m : Option Nat) (k : Nat) :
    instrs_signature af [.Prim (.OtherPrim nm (some a) (some o) m)] =
      .ok ⟨a + m.getD 0, o⟩ ∧
    VirtualEnv.from_instrs af [.Prim (.OtherPrim nm (some a) (some o) (some (k + 1)))] =
      .error (SigCheckError.fromStr "expected function. This is an interpreter bug") :=
  ⟨rfl, rfl⟩

/-- C10: a repeat count that is a known finite non-integer number fails
with the fixed `Incorrect` message, whatever the function signature and
the array-marker stack. -/
theorem c10_repeat_non_integer (env : VirtualEnv) (f : Signature) (q : ℚ)
    (hden : q.den ≠ 1) :
    env.repeat f (.Num (.num q)) =
      .error ⟨"repeat without an integer or infinity", .Incorrect⟩ := by
  have h2 : F64.fractZero (.num q) = false := by simp [F64.fractZero, hden]
  have h3 : F64.isInfinite (.num q) = false := rfl
  simp [VirtualEnv.repeat, h2, h3, SigCheckError.fromStr]

/-- The rational 1/2, built directly so that its components reduce. -/
def halfQ : ℚ := ⟨1, 2, by decide, Nat.coprime_one_left 2⟩

/-- C10 witness: the count 1/2 is rejected with the fixed message. -/
theorem c10_repeat_non_integer_witness :
    halfQ.den ≠ 1 ∧
    VirtualEnv.repeat VirtualEnv.init ⟨1, 1⟩ (.Num (.num halfQ)) =
      .error ⟨"repeat without an integer or infinity", .Incorrect⟩ :=
  ⟨by decide, c10_repeat_non_integer VirtualEnv.init ⟨1, 1⟩ halfQ (by decide)⟩

/-- C2 counterexample: with count `n = 0` (a known finite non-negative
integer) and `f = (1,1)`, the repeat rule performs no `handle` at all —
the state is returned untouched — whereas performing
`handle(f.args, f.outputs)` as the claim asserts would raise `min_height`
from 0 to 1. -/
theorem c2_counterexample :
    VirtualEnv.repeat VirtualEnv.init ⟨1, 1⟩ (.Num (.num 0)) = .ok VirtualEnv.init ∧
    (VirtualEnv.init.handle_args_outputs 1 1).min_height = 1 ∧
    VirtualEnv.init.min_height = 0 :=
  ⟨rfl, rfl, rfl⟩

/-- C2 (amended): for a known finite non-negative integral count below the
`usize` saturation bound, the repeat rule performs `handle` with the
claim's case formulas when the count is positive, and performs no stack
adjustment at all when the count is zero. -/
theorem c2_repeat_known_amended (env : VirtualEnv) (f : Signature) (q : ℚ)
    (hden : q.den = 1) (hpos : 0 ≤ q) (hsz : q.num.natAbs < 2 ^ 64) :
    env.repeat f (.Num (.num q)) = .ok (
      if q.num.natAbs = 0 then env
      else if f.args = f.outputs then env.handle_args_outputs f.args f.outputs
      else if f.args < f.outputs then
        env.handle_args_outputs f.args (q.num.natAbs * (f.outputs - f.args) + f.args)
      else env.handle_args_outputs
        ((q.num.natAbs - 1) * (f.args - f.outputs) + f.args) f.outputs) := by
  have h1 : F64.isNonneg (.num q) = true := by simp [F64.isNonneg, hpos]
  have h2 : F64.fractZero (.num q) = true := by simp [F64.fractZero, hden]
  have habs : F64.absAsUsize (.num q) = q.num.natAbs := by
    simp only [F64.absAsUsize, usizeMax]
    omega
  simp only [VirtualEnv.repeat, h1, h2, habs, if_true]
  rcases Nat.eq_zero_or_pos q.num.natAbs with h0 | h0
  · simp [h0]
  · have h0' : q.num.natAbs ≠ 0 := Nat.pos_iff_ne_zero.mp h0
    simp only [h0, h0', if_true, if_false, gt_iff_lt, if_pos h0, ite_false]
    split_ifs <;> simp_all <;> omega

/-- C2 witness: count 3 of the growing function `(1,2)` gives
`handle(1, 3*1 + 1) = handle(1, 4)`. -/
theorem c2_repeat_known_amended_witness :
    (3 : ℚ).den = 1 ∧ (0 : ℚ) ≤ 3 ∧ (3 : ℚ).num.natAbs < 2 ^ 64 ∧
    VirtualEnv.repeat VirtualEnv.init ⟨1, 2⟩ (.Num (.num 3)) =
      .ok (VirtualEnv.init.handle_args_outputs 1 4) := by
  refine ⟨rfl, by norm_num, by decide, ?_⟩
  have h := c2_repeat_known_amended VirtualEnv.init ⟨1, 2⟩ 3 rfl (by norm_num) (by decide)
  simpa using h

/-- C3 counterexample: negative infinity is a statically infinite count,
and with the shrinking function `f = (2,1)` (so `f.args > f.outputs`) the
rule does not fail with `LoopOverreach`: it first replaces `f` by its
inverse `(1,2)` and then fails with `LoopVariable (1,2) true`. -/
theorem c3_counterexample :
    errKind (VirtualEnv.repeat VirtualEnv.init ⟨2, 1⟩ (.Num (.inf true))) =
      some (.LoopVariable ⟨1, 2⟩ true) ∧
    some (SigCheckErrorKind.LoopVariable ⟨1, 2⟩ true) ≠
      some SigCheckErrorKind.LoopOverreach :=
  ⟨rfl, by decide⟩

/-- The claim's decision tree for a Repeat whose count cannot be resolved
to a finite integer: `LoopOverreach` when shrinking, `LoopVariable` when
growing outside any open array literal, `handle(f)` otherwise. -/
def repeatUnknownClaim (env : VirtualEnv) (f : Signature) (isInf : Bool) (msg : String) :
    Except SigCheckError VirtualEnv :=
  if f.outputs < f.args then .error ((SigCheckError.fromStr msg).loop_overreach)
  else if f.args < f.outputs ∧ env.array_stack = [] then
    .error ((SigCheckError.fromStr msg).loop_variable f isInf)
  else .ok (env.handle_sig f)

/-- The message the repeat rule formats for each unresolvable count
shape. -/
def repeatCountMsg (f : Signature) : BasicValue → String
  | .Num _ => "repeat with infinity and a function with signature " ++ f.fmtStr
  | _ => "repeat with no number and a function with signature " ++ f.fmtStr

/-- C3 (amended): for a count that is positive infinity or not a numeric
literal at all, the repeat rule follows the claim's decision tree exactly
(with `inf = true` for the infinite case and `inf = false` for the unknown
case); a negative-infinite count instead applies the same tree to the
inverse signature, as the counterexample shows. -/
theorem c3_repeat_unbounded_amended (env : VirtualEnv) (f : Signature) (n : BasicValue)
    (hn : n = .Num (.inf false) ∨ n = .Other ∨ ∃ xs, n = .Arr xs) :
    env.repeat f n =
      repeatUnknownClaim env f (match n with | .Num _ => true | _ => false)
        (repeatCountMsg f n) := by
  have harr : ∀ l : List Int, l.isEmpty = true ↔ l = [] := by
    intro l
    cases l <;> simp
  rcases hn with h | h | ⟨xs, h⟩ <;> subst h <;>
    simp only [VirtualEnv.repeat, repeatUnknownClaim, repeatCountMsg, F64.isNonneg,
      F64.isInfinite, F64.fractZero, Bool.not_false, if_true, if_false] <;>
    split_ifs <;> simp_all <;> omega

/-- C3 witness: an unknown (non-numeric) count with the shrinking function
`(2,1)` follows the claim tree (which yields `LoopOverreach` there). -/
theorem c3_repeat_unbounded_amended_witness :
    VirtualEnv.repeat VirtualEnv.init ⟨2, 1⟩ .Other =
      repeatUnknownClaim VirtualEnv.init ⟨2, 1⟩ false
        (repeatCountMsg ⟨2, 1⟩ .Other) :=
  c3_repeat_unbounded_amended VirtualEnv.init ⟨2, 1⟩ .Other (Or.inr (Or.inl rfl))

/-- The Do rule exactly as the claim words it, with true integer
arithmetic in the copy count (`max 0 (cond.args - (cond.outputs - 1))`)
and in the substituted condition signature
(`cond.outputs + copy_count - 1`). -/
def doClaimInt (env : VirtualEnv) (body cond : Signature) :
    Except SigCheckError VirtualEnv :=
  let copy_count : Int := max 0 ((cond.args : Int) - ((cond.outputs : Int) - 1))
  let cond_sub : Signature := ⟨cond.args, ((cond.outputs : Int) + copy_count - 1).toNat⟩
  let comp := body.compose cond_sub
  if comp.args < comp.outputs ∧ env.array_stack = [] then
    .error ((SigCheckError.fromStr
      ("do with a function with signature " ++ comp.fmtStr)).loop_variable comp false)
  else
    .ok (env.handle_args_outputs comp.args (comp.outputs + (cond_sub.outputs - cond.args)))

/-- C4 counterexample: at `body = (0,0)`, `cond = (1,0)` (so
`cond.outputs = 0`) the code's saturating copy count is 1 and the rule
performs `handle(1,0)` (final height -1), while the claim's integer
formula makes the copy count 2 and predicts `handle(1,1)` (final height
0). -/
theorem c4_counterexample :
    exceptHeight (VirtualEnv.init.doArm ⟨0, 0⟩ ⟨1, 0⟩) = -1 ∧
    exceptHeight (doClaimInt VirtualEnv.init ⟨0, 0⟩ ⟨1, 0⟩) = 0 ∧
    (-1 : Int) ≠ 0 :=
  ⟨rfl, rfl, by decide⟩

/-- The Do rule with every subtraction clamped at zero, as the code's
`saturating_sub` does: `copy_count = max 0 (cond.args - max 0
(cond.outputs - 1))` and `cond_sub = (cond.args, max 0 (cond.outputs +
copy_count - 1))`. -/
def doClaimAmended (env : VirtualEnv) (body cond : Signature) :
    Except SigCheckError VirtualEnv :=
  let copy_count : Int := max 0 ((cond.args : Int) - max 0 ((cond.outputs : Int) - 1))
  let cond_sub : Signature :=
    ⟨cond.args, (max 0 ((cond.outputs : Int) + copy_count - 1)).toNat⟩
  let comp := body.compose cond_sub
  if comp.args < comp.outputs ∧ env.array_stack = [] then
    .error ((SigCheckError.fromStr
      ("do with a function with signature " ++ comp.fmtStr)).loop_variable comp false)
  else
    .ok (env.handle_args_outputs comp.args (comp.outputs + (cond_sub.outputs - cond.args)))

/-- C4 (amended): the Do rule computes the claim's composition and
failure condition with clamped (saturating) subtractions — in particular,
when `cond.outputs = 0` the copy count is `cond.args`, not
`cond.args + 1`. -/
theorem c4_do_amended (env : VirtualEnv) (body cond : Signature) :
    env.doArm body cond = doClaimAmended env body cond := by
  have hc : ((cond.outputs + (cond.args - (cond.outputs - 1))) - 1 : Nat) =
      (max 0 ((cond.outputs : Int) +
        max 0 ((cond.args : Int) - max 0 ((cond.outputs : Int) - 1)) - 1)).toNat := by
    omega
  simp only [VirtualEnv.doArm, doClaimAmended]
  rw [hc]

/-- C6: the cached entry point is transparent — under the no-collision
assumption (no other slice with this slice's hash has a different
uncached result) and with a valid memo table, the returned result equals
the direct, uncached simulation, and the updated table is again valid. -/
theorem c6_cache_transparent (af : Signature → Option Signature)
    (hashFn : List Instr → Nat) (cache : SigCache) (l : List Instr)
    (hcoll : ∀ l', hashFn l' = hashFn l →
      instrs_all_signatures_uncached af l' = instrs_all_signatures_uncached af l)
    (hvalid : CacheValid af hashFn cache) :
    (instrs_all_signatures af hashFn cache l).1 = instrs_all_signatures_uncached af l ∧
    CacheValid af hashFn (instrs_all_signatures af hashFn cache l).2 := by
  rcases hl : lookupHash (hashFn l) cache with _ | s
  · simp only [instrs_all_signatures, hl]
    rcases hu : instrs_all_signatures_uncached af l with er | s'
    · exact ⟨rfl, hvalid⟩
    · refine ⟨rfl, ?_⟩
      intro h' s'' hl'
      simp only [lookupHash] at hl'
      split at hl'
      · next heq =>
        injection hl' with hl'
        exact ⟨l, heq, hl' ▸ hu⟩
      · exact hvalid _ _ hl'
  · obtain ⟨l₀, hh, hu⟩ := hvalid _ _ hl
    have hcl := hcoll l₀ hh
    simp only [instrs_all_signatures, hl]
    refine ⟨?_, hvalid⟩
    rw [← hcl, hu]

/-- C6 witness: on the empty cache (trivially valid) and a hash that is
injective at the empty slice, the cached entry point returns the direct
result. -/
theorem c6_cache_transparent_witness :
    CacheValid (fun _ => none) List.length [] ∧
    ((instrs_all_signatures (fun _ => none) List.length [] []).1 =
        instrs_all_signatures_uncached (fun _ => none) [] ∧
      CacheValid (fun _ => none) List.length
        (instrs_all_signatures (fun _ => none) List.length [] []).2) := by
  have hv : CacheValid (fun _ => none) List.length [] := by
    intro h s hl
    simp [lookupHash] at hl
  refine ⟨hv, ?_⟩
  refine c6_cache_transparent (fun _ => none) List.length [] [] ?_ hv
  intro l' hlen
  have : l' = [] := List.length_eq_zero.mp hlen
  rw [this]

/-- Sequential composition of the simulator: an error in the prefix
short-circuits the whole run. -/
theorem instrs_append (af : Signature → Option Signature) (env : VirtualEnv)
    (l₁ l₂ : List Instr) :
    env.instrs af (l₁ ++ l₂) = bindE (env.instrs af l₁) (fun e => e.instrs af l₂) := by
  induction l₁ generalizing env with
  | nil => rfl
  | cons i rest ih =>
    simp only [List.cons_append, VirtualEnv.instrs]
    cases h : env.instr af i with
    | error er => simp only [bindE]
    | ok e => exact ih e

/-- C7: when the check fails, the classified error is returned by
immediate early return (appending further instructions cannot change it),
no signature bundle is produced, and nothing is inserted into the result
cache for that slice — the memo table is returned unchanged. -/
theorem c7_fail_path (af : Signature → Option Signature) (l l₂ : List Instr)
    (er : SigCheckError) (hashFn : List Instr → Nat) (cache : SigCache)
    (h : VirtualEnv.from_instrs af l = .error er)
    (hmiss : lookupHash (hashFn l) cache = none) :
    VirtualEnv.from_instrs af (l ++ l₂) = .error er ∧
    instrs_all_signatures_uncached af l = .error er ∧
    instrs_all_signatures af hashFn cache l = (.error er, cache) := by
  have h2 : instrs_all_signatures_uncached af l = .error er := by
    unfold instrs_all_signatures_uncached
    rw [h]
    rfl
  refine ⟨?_, h2, ?_⟩
  · unfold VirtualEnv.from_instrs at h ⊢
    rw [instrs_append, h]
    rfl
  · unfold instrs_all_signatures
    rw [hmiss, h2]

/-- C7 witness: `[EndArray]` fails with the classified error, the failure
survives appending `[Comment]`, and the empty cache stays empty. -/
theorem c7_fail_path_witness :
    VirtualEnv.from_instrs (fun _ => none) [.EndArray] =
      .error ⟨"EndArray without BeginArray", .Incorrect⟩ ∧
    (VirtualEnv.from_instrs (fun _ => none) ([.EndArray] ++ [.Comment]) =
        .error ⟨"EndArray without BeginArray", .Incorrect⟩ ∧
      instrs_all_signatures_uncached (fun _ => none) [.EndArray] =
        .error ⟨"EndArray without BeginArray", .Incorrect⟩ ∧
      instrs_all_signatures (fun _ => none) (fun _ => 0) [] [.EndArray] =
        (.error ⟨"EndArray without BeginArray", .Incorrect⟩, [])) :=
  ⟨rfl, c7_fail_path (fun _ => none) [.EndArray] [.Comment] _ (fun _ => 0) [] rfl rfl⟩
